import Mathlib

/-!
Shallow embedding of `awsbill2graphite.py` (the billing-CSV → Graphite metric
pipeline) together with theorems checking the natural-language specification
against it.

Conventions of the embedding:
* Python strings are Lean `String`s; character-level work is done on `.data`
  (`List Char`) with executable helper functions mirroring the Python string
  methods actually used by the source (`split`, `startswith`, `in`,
  `isupper`, `isdigit`, `replace`, `join`).
* Python `float` amounts are idealized as exact rationals (`ℚ`); every
  concrete value exercised below is an exact decimal, where IEEE doubles and
  rationals agree.
* Fallible Python code (KeyError, IndexError, TypeError, ValueError, and the
  external parser's failure) is modelled with `Except PyErr`.
* `os.getenv` results are modelled as `Option String` (`none` = variable
  unset, which Python reports as `None`).
* Timestamps (the external `arrow.get` on the UTC second-resolution ISO-8601
  strings appearing in billing reports, and `strftime("%s")`) are modelled as
  Unix epoch seconds (`Int`).
-/

/-- Runtime errors the translated Python code can raise. -/
inductive PyErr where
  | keyError
  | indexError
  | typeError
  | valueError
  | parserError
  deriving DecidableEq

/-- Decidable equality for `Except`, so concrete runs of the embedded code
can be checked by `decide`. -/
instance {ε α : Type} [DecidableEq ε] [DecidableEq α] : DecidableEq (Except ε α)
  | .ok a, .ok b =>
    if h : a = b then .isTrue (by rw [h]) else .isFalse (by simp [h])
  | .ok _, .error _ => .isFalse (by simp)
  | .error _, .ok _ => .isFalse (by simp)
  | .error a, .error b =>
    if h : a = b then .isTrue (by rw [h]) else .isFalse (by simp [h])

/-- Python `str.split(sep)` for a one-character separator, on char lists:
`"".split(c) = [""]`, and every occurrence of the separator splits. -/
def splitAll (c : Char) : List Char → List (List Char)
  | [] => [[]]
  | x :: xs =>
    let r := splitAll c xs
    if x = c then [] :: r
    else
      match r with
      | [] => [[x]]
      | y :: ys => (x :: y) :: ys

/-- Python `str.split(sep, 1)` for a one-character separator: at most one
split, at the first occurrence of the separator. -/
def splitFirst (c : Char) : List Char → List (List Char)
  | [] => [[]]
  | x :: xs =>
    if x = c then [[], xs]
    else
      match splitFirst c xs with
      | [] => [[x]]
      | y :: ys => (x :: y) :: ys

/-- Python `str.startswith(pat)` on char lists. -/
def startsWithL : List Char → List Char → Bool
  | [], _ => true
  | _ :: _, [] => false
  | p :: ps, x :: xs => p == x && startsWithL ps xs

/-- Python `pat in s` (substring containment) on char lists. -/
def containsL (pat : List Char) : List Char → Bool
  | [] => startsWithL pat []
  | x :: xs => startsWithL pat (x :: xs) || containsL pat xs

/-- Python `str.isupper()`: at least one cased character and no lowercase
character (ASCII reading, which covers every string the source tests). -/
def pyIsUpper (l : List Char) : Bool :=
  l.any (fun c => c.isUpper || c.isLower) && l.all (fun c => !c.isLower)

/-- Python `".".join(pieces)` for string pieces. -/
def joinDot : List String → String
  | [] => ""
  | [x] => x
  | x :: y :: ys => x ++ "." ++ joinDot (y :: ys)

/-- Turns a list of optional strings into a list of strings, failing on the
first `none`; used to model that `".".join` raises TypeError on `None`. -/
def seqOpt : List (Option String) → Option (List String)
  | [] => some []
  | none :: _ => none
  | some x :: rest => (seqOpt rest).map (x :: ·)

/-- Numeric value of a decimal digit character. -/
def digitVal (c : Char) : Nat := c.toNat - 48

/-- Natural number denoted by a list of decimal digit characters. -/
def natOfDigits (l : List Char) : Nat := l.foldl (fun a c => 10 * a + digitVal c) 0

/-- Days between a civil date (valid, year ≥ 1) and 1970-01-01, by the
standard era-based civil-calendar algorithm. -/
def epochDays (y mo da : Nat) : Int :=
  let y2 := y - (if mo ≤ 2 then 1 else 0)
  let era := y2 / 400
  let yoe := y2 % 400
  let mp := (mo + 9) % 12
  let doy := (153 * mp + 2) / 5 + da - 1
  let doe := yoe * 365 + yoe / 4 - yoe / 100 + doy
  ((era * 146097 + doe : Nat) : Int) - 719468

/-- Modelled external dependency: `arrow.get` applied to the UTC
second-resolution ISO-8601 timestamps of hourly billing reports
(`YYYY-MM-DDTHH:MM:SSZ`), yielding Unix epoch seconds; any other input is the
external parser's failure (`arrow.parser.ParserError`). -/
def parseTime (s : String) : Except PyErr Int :=
  match s.data with
  | [y1, y2, y3, y4, '-', m1, m2, '-', a1, a2, 'T', h1, h2, ':', n1, n2, ':', s1, s2, 'Z'] =>
    if y1.isDigit && y2.isDigit && y3.isDigit && y4.isDigit && m1.isDigit && m2.isDigit &&
        a1.isDigit && a2.isDigit && h1.isDigit && h2.isDigit && n1.isDigit && n2.isDigit &&
        s1.isDigit && s2.isDigit then
      let y := 1000 * digitVal y1 + 100 * digitVal y2 + 10 * digitVal y3 + digitVal y4
      let mo := 10 * digitVal m1 + digitVal m2
      let da := 10 * digitVal a1 + digitVal a2
      let hh := 10 * digitVal h1 + digitVal h2
      let mm := 10 * digitVal n1 + digitVal n2
      let ss := 10 * digitVal s1 + digitVal s2
      if 1 ≤ y && 1 ≤ mo && mo ≤ 12 && 1 ≤ da && da ≤ 31 && hh ≤ 23 && mm ≤ 59 && ss ≤ 59 then
        .ok (epochDays y mo da * 86400 + (hh * 3600 + mm * 60 + ss : Nat))
      else .error .parserError
    else .error .parserError
  | _ => .error .parserError

/-- Modelled external dependency: Python `float()` on the plain decimal
literals found in the `lineItem/BlendedCost` column (optional sign, digits,
at most one decimal point); failure is `ValueError`.  The binary double is
idealized as the exact rational it denotes. -/
def pyFloat (s : String) : Except PyErr ℚ :=
  let signed : Bool × List Char :=
    match s.data with
    | '-' :: rest => (true, rest)
    | '+' :: rest => (false, rest)
    | l => (false, l)
  let body := signed.2
  let mk := fun (n : Nat) (den : Nat) =>
    Except.ok (mkRat (if signed.1 then -(n : Int) else (n : Int)) den)
  match splitFirst '.' body with
  | [ip] =>
    if ip ≠ [] ∧ ip.all Char.isDigit then mk (natOfDigits ip) 1
    else .error .valueError
  | [ip, fp] =>
    if (ip ≠ [] ∨ fp ≠ []) ∧ ip.all Char.isDigit ∧ fp.all Char.isDigit ∧ ¬ containsL ['.'] fp then
      mk (natOfDigits ip * 10 ^ fp.length + natOfDigits fp) (10 ^ fp.length)
    else .error .valueError
  | _ => .error .valueError

/-- Rounds `a / b` to the nearest integer, ties to even (`b ≠ 0` expected):
the rounding of fixed-point decimal formatting. -/
def rheNat (a b : Nat) : Nat :=
  let q := a / b
  let r := a % b
  if 2 * r < b then q else if b < 2 * r then q + 1 else if q % 2 = 0 then q else q + 1

/-- Pads a string on the left with zeros up to the given width. -/
def padLeftZeros (w : Nat) (s : String) : String :=
  String.mk (List.replicate (w - s.length) '0') ++ s

/-- Python fixed-point float formatting with the default precision 6, i.e.
what the format spec `f` produces when no precision is given. -/
def formatF6 (q : ℚ) : String :=
  let sign := if q.num < 0 then "-" else ""
  let k := rheNat (q.num.natAbs * 1000000) q.den
  sign ++ toString (k / 1000000) ++ "." ++ padLeftZeros 6 (toString (k % 1000000))

/-- The format spec `04f` of the source's output line: fixed-point with
default precision 6, zero-filled to minimum width 4.  The width never binds,
because precision-6 output always has at least 8 characters. -/
def pyFormat04f (q : ℚ) : String :=
  let body := formatF6 q
  if body.length < 4 then String.mk (List.replicate (4 - body.length) '0') ++ body else body

/-- Lookup in a Python dict modelled as an association list built by
`dict(zip(...))`: a later binding of the same key overrides an earlier one. -/
def dictGet : List (String × String) → String → Option String
  | [], _ => none
  | (k, v) :: rest, key =>
    match dictGet rest key with
    | some v2 => some v2
    | none => if k = key then some v else none

/-- The `REGION_NAMES` table of the source: AWS location strings to
normalized region codes. -/
def REGION_NAMES : List (String × String) :=
  [("US East (N. Virginia)", "us-east-1"),
   ("US West (N. California)", "us-west-1"),
   ("US West (Oregon)", "us-west-2"),
   ("EU (Ireland)", "eu-west-1"),
   ("EU (Frankfurt)", "eu-central-1"),
   ("Asia Pacific (Tokyo)", "ap-northeast-1"),
   ("Asia Pacific (Seoul)", "ap-northeast-2"),
   ("Asia Pacific (Singapore)", "ap-southeast-1"),
   ("Asia Pacific (Sydney)", "ap-southeast-2"),
   ("South America (Sao Paulo)", "sa-east-1")]

/-- A parsed CSV row: the `content` dict of the source's `Row` class. -/
structure Row where
  content : List (String × String)
  deriving DecidableEq

/-- Source `Row.__init__`: `self.content = dict(zip(col_names, row_list))`.
Note `zip` silently truncates to the shorter of the two lists. -/
def Row.init (col_names row_list : List String) : Row :=
  ⟨List.zip col_names row_list⟩

/-- Python `self.content[key]`: dict indexing, raising KeyError when the
column is absent. -/
def Row.getCol (r : Row) (key : String) : Except PyErr String :=
  match dictGet r.content key with
  | some v => .ok v
  | none => .error .keyError

/-- Source `Row.region`: the normalized region for `product/location`, or
the sentinel `"noregion"` when the location is not in `REGION_NAMES`. -/
def Row.region (r : Row) : Except PyErr String := do
  let loc ← r.getCol "product/location"
  match dictGet REGION_NAMES loc with
  | some code => pure code
  | none => pure "noregion"

/-- Source `Row.interval`: seconds between the two halves of
`identity/TimeInterval` (split on the first "/"; unpacking a list that does
not have exactly two elements raises ValueError). -/
def Row.interval (r : Row) : Except PyErr Int := do
  let ti ← r.getCol "identity/TimeInterval"
  let parsed ← (splitFirst '/' ti.data).mapM (fun part => parseTime (String.mk part))
  match parsed with
  | [start, stop] => pure (stop - start)
  | _ => .error .valueError

/-- Condition of source line 165: the first dash-segment looks like a region
code ("APN1", "USW2", ...): exactly 4 characters, first two in
{US, EU, AP, SA}, all uppercase, 4th a digit. -/
def isRegionCodeSeg (s : List Char) : Bool :=
  s.length == 4 &&
    (s.take 2 == "US".data || s.take 2 == "EU".data || s.take 2 == "AP".data ||
      s.take 2 == "SA".data) &&
    pyIsUpper s && (s.getD 3 ' ').isDigit

/-- Source `Row.usage_type`, lines 164-170, as a function of the raw
`lineItem/UsageType` string: split on "-", drop a leading region-code
segment, then test the first remaining segment for the `BoxUsage:` marker.
Indexing `splut[0]` after the drop raises IndexError when nothing remains.
`splitAll` never returns `[]`, so `headD []` is exactly `splut[0]`. -/
def classifyUsageType (raw : List Char) : Except PyErr (Option String) :=
  let splut := splitAll '-' raw
  let splut2 := if isRegionCodeSeg (splut.headD []) then splut.drop 1 else splut
  match splut2 with
  | [] => .error .indexError
  | h :: _ => if startsWithL "BoxUsage:".data h then .ok (some "ec2-instance") else .ok none

/-- Source `Row.usage_type` accessor: reads the raw usage type and
classifies it (`none` plays Python's `None`, the unknown category). -/
def Row.usage_type (r : Row) : Except PyErr (Option String) := do
  let ut ← r.getCol "lineItem/UsageType"
  classifyUsageType ut.data

/-- Source `Row.instance_type`, lines 172-185, as a function of the raw
usage-type string: absent unless `BoxUsage:` occurs; then the part after the
first ":", with every "." replaced by "-" (single-character `str.replace` is
a character map). -/
def instanceTypeOfRaw (raw : List Char) : Option String :=
  if containsL "BoxUsage:".data raw then
    match splitFirst ':' raw with
    | _ :: second :: _ =>
      some (String.mk (second.map (fun c => if c = '.' then '-' else c)))
    | _ => none
  else none

/-- Source `Row.instance_type` accessor. -/
def Row.instance_type (r : Row) : Except PyErr (Option String) := do
  let ut ← r.getCol "lineItem/UsageType"
  pure (instanceTypeOfRaw ut.data)

/-- Source `Row.end_time`: parse the part of `identity/TimeInterval` after
the first "/"; indexing `[1]` raises IndexError when there is no "/". -/
def Row.end_time (r : Row) : Except PyErr Int := do
  let ti ← r.getCol "identity/TimeInterval"
  match splitFirst '/' ti.data with
  | _ :: stop :: _ => parseTime (String.mk stop)
  | _ => .error .indexError

/-- Source `Row.tags`: always the empty mapping. -/
def Row.tags (_ : Row) : List (String × String) := []

/-- Source `Row.amount`: `float(self.content["lineItem/BlendedCost"])`. -/
def Row.amount (r : Row) : Except PyErr ℚ := do
  let c ← r.getCol "lineItem/BlendedCost"
  pyFloat c

/-- The concrete `TimeseriesPattern` subclasses of the source:
`ByInstanceType` and `AllCosts`. -/
inductive TimeseriesPattern where
  | byInstanceType
  | allCosts
  deriving DecidableEq

/-- The `match` methods: `ByInstanceType` tests
`row.usage_type() == "ec2-instance" and len(row.tags()) == 0`; `AllCosts`
matches unconditionally. -/
def TimeseriesPattern.matches : TimeseriesPattern → Row → Except PyErr Bool
  | .byInstanceType, r => do
    let ut ← r.usage_type
    pure (ut == some "ec2-instance" && r.tags.length == 0)
  | .allCosts, _ => pure true

/-- The `metric_name` methods: `ByInstanceType` joins
`(row.region(), row.usage_type(), row.instance_type())` with "." (joining a
`None` raises TypeError); `AllCosts` is the constant name. -/
def TimeseriesPattern.metric_name : TimeseriesPattern → Row → Except PyErr String
  | .byInstanceType, r => do
    let reg ← r.region
    let ut ← r.usage_type
    let it ← r.instance_type
    match seqOpt [some reg, ut, it] with
    | some pieces => pure (joinDot pieces)
    | none => .error .typeError
  | .allCosts, _ => pure "all-regions.all-types.total-cost"

/-- One timestamp-to-value inner dict of the ledger. -/
abbrev Series := List (Int × ℚ)

/-- The ledger's `_timeseries` table: metric name to timestamp-to-value. -/
abbrev Table := List (String × Series)

/-- Update of the inner defaultdict: `ts[t] += a` (a fresh key starts at
`0.0`, and `0 + a = a` exactly). -/
def addPoint : Series → Int → ℚ → Series
  | [], t, a => [(t, a)]
  | (t2, v) :: rest, t, a =>
    if t2 = t then (t2, v + a) :: rest else (t2, v) :: addPoint rest t a

/-- Update of the outer defaultdict: `_timeseries[n][t] += a`. -/
def addSeries : Table → String → Int → ℚ → Table
  | [], n, t, a => [(n, addPoint [] t a)]
  | (n2, s) :: rest, n, t, a =>
    if n2 = n then (n2, addPoint s t a) :: rest else (n2, s) :: addSeries rest n t a

/-- Value held by an inner dict at a timestamp (0, the defaultdict default,
when absent). -/
def lookupPoint : Series → Int → ℚ
  | [], _ => 0
  | (t2, v) :: rest, t => if t2 = t then v else lookupPoint rest t

/-- Value held by the table at a (metric-name, timestamp) pair. -/
def lookupVal : Table → String → Int → ℚ
  | [], _, _ => 0
  | (n2, s) :: rest, n, t => if n2 = n then lookupPoint s t else lookupVal rest n t

/-- Body of the loop in source `MetricLedger.process` for one pattern:
`if pat.match(row): self._timeseries[pat.metric_name(row)][row.end_time()] += row.amount()`. -/
def MetricLedger.processOne (r : Row) (tbl : Table) (p : TimeseriesPattern) :
    Except PyErr Table := do
  let b ← p.matches r
  if b then do
    let n ← p.metric_name r
    let t ← r.end_time
    let a ← r.amount
    pure (addSeries tbl n t a)
  else
    pure tbl

/-- Source `MetricLedger.process`: fold the pattern loop over the pattern
list. -/
def MetricLedger.process (patterns : List TimeseriesPattern) (tbl : Table) (r : Row) :
    Except PyErr Table :=
  patterns.foldlM (MetricLedger.processOne r) tbl

/-- The pattern list built in source `generate_metrics`:
`[ByInstanceType(), AllCosts()]`. -/
def defaultPatterns : List TimeseriesPattern :=
  [.byInstanceType, .allCosts]

/-- Processing a record list through a fresh `MetricLedger` with the
source's pattern list. -/
def processAll (rows : List Row) : Except PyErr Table :=
  rows.foldlM (MetricLedger.process defaultPatterns) []

/-- Loop body of source `generate_metrics`: skip rows whose
`lineItem/LineItemType` is not `"Usage"`, skip rows whose interval is not
3600 seconds, feed the rest to the ledger. -/
def driverStep (tbl : Table) (r : Row) : Except PyErr Table := do
  let lit ← r.getCol "lineItem/LineItemType"
  if lit ≠ "Usage" then pure tbl
  else do
    let iv ← r.interval
    if iv ≠ 3600 then pure tbl
    else MetricLedger.process defaultPatterns tbl r

/-- Source `generate_metrics` without the I/O wrappers: build a `Row` per
data line and run the filtered fold. -/
def generate_metrics (col_names : List String) (row_lists : List (List String)) :
    Except PyErr Table :=
  (row_lists.map (Row.init col_names)).foldlM driverStep []

/-- Source `MetricFormatter.__init__`: the prefix pieces list, from the
`AWSBILL_METRIC_PREFIX` environment value (`none` = unset).  Note
`os.getenv(...) != ""` is also true of `None`, which is then stored in the
pieces list. -/
def MetricFormatter.initialPieces (env : Option String) : List (Option String) :=
  if env ≠ some "" then [env] else []

/-- Source `MetricFormatter.format`: join the pieces and the timeseries id
with "." (TypeError on a `None` piece), then
`"{0} {1:04f} {2}\n"` with the value and `timestamp.strftime("%s")`
(epoch seconds). -/
def MetricFormatter.format (env : Option String) (ts_id : String) (timestamp : Int)
    (value : ℚ) : Except PyErr String :=
  match seqOpt (MetricFormatter.initialPieces env ++ [some ts_id]) with
  | some pieces =>
    .ok (joinDot pieces ++ " " ++ pyFormat04f value ++ " " ++ toString timestamp ++ "\n")
  | none => .error .typeError

/-- Modelled from the spec: the fixed 4-decimal-place rendering
`<value:.4f>` that the spec's output-wire-format sentence asserts (to be
compared with `pyFormat04f`, translated from the code's `{1:04f}`). -/
def specFormatFixed4 (q : ℚ) : String :=
  let sign := if q.num < 0 then "-" else ""
  let k := rheNat (q.num.natAbs * 10000) q.den
  sign ++ toString (k / 10000) ++ "." ++ padLeftZeros 4 (toString (k % 10000))

/-- Modelled from the spec: the full output line the spec asserts,
`<metric.name> <value:.4f> <unix-timestamp>\n`. -/
def specLine4 (name : String) (t : Int) (v : ℚ) : String :=
  name ++ " " ++ specFormatFixed4 v ++ " " ++ toString t ++ "\n"

/-- Well-formedness of the aggregation table: metric names are pairwise
distinct and, within each metric, timestamps are pairwise distinct — i.e. at
most one accumulator per (metric-name, timestamp) pair. -/
def TableWF (tbl : Table) : Prop :=
  (tbl.map Prod.fst).Nodup ∧ ∀ x ∈ tbl, (x.2.map Prod.fst).Nodup

/-- Does the record contribute to metric `n` at timestamp `t`, i.e. does
some rule of the source's rule set match it, name it `n`, and place it at
`t`? -/
def contributesB (r : Row) (n : String) (t : Int) : Bool :=
  defaultPatterns.any fun p =>
    decide (p.matches r = .ok true) && decide (p.metric_name r = .ok n) &&
      decide (r.end_time = .ok t)

/-- The record's parsed amount, defaulting to 0 when unparseable (only used
to state sums over records that were in fact processed successfully). -/
def amountD (r : Row) : ℚ :=
  match r.amount with
  | .ok a => a
  | .error _ => 0

/-- Header of the billing CSV fixtures used in concrete runs below. -/
def billCols : List String :=
  ["identity/TimeInterval", "lineItem/LineItemType", "lineItem/UsageType",
   "lineItem/BlendedCost", "product/location"]

/-- One hourly interval: 2017-02-01 00:00 UTC to 01:00 UTC. -/
def hourFeb1 : String := "2017-02-01T00:00:00Z/2017-02-01T01:00:00Z"

/-- Hourly Usage row whose usage type merely CONTAINS `BoxUsage:m1.small`
(first dash-segment is `AWS`, not a region code and not `BoxUsage:...`). -/
def rowAwsBox : Row :=
  Row.init billCols [hourFeb1, "Usage", "AWS-BoxUsage:m1.small", "0.85", "US West (Oregon)"]

/-- Hourly Usage `BoxUsage:c3.2xlarge` row costing 1.25. -/
def rowSum1 : Row :=
  Row.init billCols [hourFeb1, "Usage", "BoxUsage:c3.2xlarge", "1.25", "US West (Oregon)"]

/-- Hourly Usage `BoxUsage:c3.2xlarge` row costing 0.75, same metric and
end timestamp as `rowSum1`. -/
def rowSum2 : Row :=
  Row.init billCols [hourFeb1, "Usage", "BoxUsage:c3.2xlarge", "0.75", "US West (Oregon)"]

/-- A non-"Usage" row. -/
def rowTax : Row := Row.init ["lineItem/LineItemType"] ["Tax"]

/-- A row whose usage type ends exactly at `BoxUsage:`. -/
def rowBoxEmpty : Row := Row.init ["lineItem/UsageType"] ["BoxUsage:"]

/-- A row located in US East (N. Virginia). -/
def rowUSEast : Row := Row.init ["product/location"] ["US East (N. Virginia)"]

/-- The aggregation table produced by processing `rowSum1` then `rowSum2`:
one accumulator per metric, holding the summed amounts. -/
def tblSum : Table :=
  [("us-west-2.ec2-instance.c3-2xlarge", [(1485910800, mkRat 125 100 + mkRat 75 100)]),
   ("all-regions.all-types.total-cost", [(1485910800, mkRat 125 100 + mkRat 75 100)])]

/-! Helper lemmas about the `Except` monad and dict lookup. -/

@[simp] theorem okBind {ε α β : Type} (a : α) (f : α → Except ε β) :
    (Except.ok a : Except ε α) >>= f = f a := rfl

@[simp] theorem errBind {ε α β : Type} (e : ε) (f : α → Except ε β) :
    (Except.error e : Except ε α) >>= f = .error e := rfl

@[simp] theorem pureOk {ε α : Type} (a : α) : (pure a : Except ε α) = .ok a := rfl

theorem bind_eq_ok {ε α β : Type} {e : Except ε α} {f : α → Except ε β} {v : β}
    (h : e >>= f = .ok v) : ∃ a, e = .ok a ∧ f a = .ok v := by
  cases e with
  | ok a => exact ⟨a, rfl, h⟩
  | error b => cases h

theorem dictGet_mem {l : List (String × String)} {k v : String}
    (h : dictGet l k = some v) : (k, v) ∈ l := by
  induction l with
  | nil => cases h
  | cons kv rest ih =>
    obtain ⟨k2, v2⟩ := kv
    unfold dictGet at h
    rcases hr : dictGet rest k with _ | v3 <;> rw [hr] at h
    · by_cases hk : k2 = k
      · rw [if_pos hk] at h
        injection h with hv
        subst hk; subst hv
        exact List.mem_cons_self ..
      · rw [if_neg hk] at h; cases h
    · injection h with hv
      subst hv
      exact List.mem_cons_of_mem _ (ih hr)

theorem dictGet_eq_none {l : List (String × String)} {k : String}
    (h : dictGet l k = none) : ∀ v, (k, v) ∉ l := by
  induction l with
  | nil => intro v hv; cases hv
  | cons kv rest ih =>
    obtain ⟨k2, v2⟩ := kv
    unfold dictGet at h
    rcases hr : dictGet rest k with _ | v3 <;> rw [hr] at h
    · intro v hv
      rcases List.mem_cons.mp hv with heq | hm
      · have hk : k2 = k := by cases heq; rfl
        rw [if_pos hk] at h; cases h
      · exact ih hr v hm
    · cases h

theorem region_ok_cases {r : Row} {reg : String} (h : Row.region r = .ok reg) :
    reg = "noregion" ∨ reg ∈ REGION_NAMES.map Prod.snd := by
  unfold Row.region at h
  rcases hg : r.getCol "product/location" with e | loc <;> rw [hg] at h
  · cases h
  · rw [okBind] at h
    rcases hd : dictGet REGION_NAMES loc with _ | code <;> rw [hd] at h
    · injection h with h2; exact Or.inl h2.symm
    · injection h with h2
      subst h2
      exact Or.inr (List.mem_map.mpr ⟨(loc, code), dictGet_mem hd, rfl⟩)

/-- C1 counterexample: the formatter renders the value with Python's default
fixed-point precision of 6 decimal places, not the 4 the claim asserts: with
no prefix, metric "m", timestamp 0 and value 2, the produced line is
`"m 2.000000 0\n"`, while the claimed line shape gives `"m 2.0000 0\n"`. -/
theorem claimC1_counterexample :
    MetricFormatter.format (some "") "m" 0 (mkRat 2 1) = .ok "m 2.000000 0\n" ∧
    specLine4 "m" 0 (mkRat 2 1) = "m 2.0000 0\n" ∧
    ("m 2.000000 0\n" : String) ≠ "m 2.0000 0\n" := by decide

/-- C1 (amended): for every configured prefix value, metric name, timestamp
and value, the line is the (optionally prefixed) dot-joined metric name, a
space, the value rendered by the format spec `04f` — fixed-point with the
default SIX decimal places, the zero-fill width 4 never binding — a space,
the integer Unix timestamp, and a newline. -/
theorem claimC1_line_shape (p ts_id : String) (t : Int) (v : ℚ) :
    MetricFormatter.format (some p) ts_id t v =
      .ok ((if p = "" then ts_id else p ++ "." ++ ts_id) ++ " " ++ pyFormat04f v ++ " " ++
        toString t ++ "\n") := by
  by_cases hp : p = "" <;>
    simp [MetricFormatter.format, MetricFormatter.initialPieces, hp, seqOpt, joinDot]

/-- C2: with the prefix environment variable wholly unset, `os.getenv`
returns `None`, the `!= ""` test still succeeds, `None` is stored as a
prefix piece, and `".".join` raises TypeError when the first line is
formatted — the line does not begin with the metric name. -/
theorem claimC2_unset_env_breaks_format :
    MetricFormatter.initialPieces none = [none] ∧
    MetricFormatter.format none "us-west-2.ec2-instance.c3-2xlarge" 1485910800 (mkRat 85 100) =
      .error .typeError := by decide

/-- C3: classification of the bare region-code usage type "APN1" does NOT
terminate normally: the region prefix is dropped, nothing remains, and
`splut[0]` raises IndexError — contradicting both the claim and the
method's own docstring ("returns None if the usage type isn't known"). -/
theorem claimC3_regioncode_only_raises :
    isRegionCodeSeg "APN1".data = true ∧
    classifyUsageType "APN1".data = .error .indexError := by decide

/-- C4 counterexample: constructing a Row from a 2-column header and a
1-value list does not fail — `dict(zip(...))` silently truncates, yielding a
Row pairing only the first column. -/
theorem claimC4_counterexample :
    Row.init ["lineItem/UsageType", "lineItem/BlendedCost"] ["BoxUsage:m1.small"] =
      ⟨[("lineItem/UsageType", "BoxUsage:m1.small")]⟩ := by decide

/-- C4 (amended): Row construction never fails; for every header list and
value list (equal length or not) it silently builds the zip of the two,
whose length is the minimum of the two lengths.  No MalformedRow error
exists; missing columns surface later as KeyError from the accessors. -/
theorem claimC4_construction_truncates (cols vals : List String) :
    (Row.init cols vals).content = List.zip cols vals ∧
    (Row.init cols vals).content.length = min cols.length vals.length :=
  ⟨rfl, List.length_zip ..⟩

/-- C7: the classifier maps "USE1-USW2-AWS-In-Bytes" to unknown (`none`)
with no instance type, "APN1-BoxUsage:c3.2xlarge" to ec2-instance with
instance type "c3-2xlarge", and "BoxUsage:m1.small" to ec2-instance with
instance type "m1-small" (split on the first ":", "." replaced by "-"). -/
theorem claimC7_classifier_examples :
    classifyUsageType "USE1-USW2-AWS-In-Bytes".data = .ok none ∧
    instanceTypeOfRaw "USE1-USW2-AWS-In-Bytes".data = none ∧
    classifyUsageType "APN1-BoxUsage:c3.2xlarge".data = .ok (some "ec2-instance") ∧
    instanceTypeOfRaw "APN1-BoxUsage:c3.2xlarge".data = some "c3-2xlarge" ∧
    classifyUsageType "BoxUsage:m1.small".data = .ok (some "ec2-instance") ∧
    instanceTypeOfRaw "BoxUsage:m1.small".data = some "m1-small" := by decide

/-- C8: whenever the location column is present, `region()` returns
normally: the table's short code for a recognized location (in particular
"US East (N. Virginia)" yields "us-east-1") and the sentinel "noregion" for
every unrecognized location — never an unknown-region error. -/
theorem claimC8_region_graceful (r : Row) (loc : String)
    (h : r.getCol "product/location" = .ok loc) :
    ∃ code, Row.region r = .ok code ∧
      ((loc, code) ∈ REGION_NAMES ∨ (code = "noregion" ∧ ∀ c, (loc, c) ∉ REGION_NAMES)) ∧
      (loc = "US East (N. Virginia)" → code = "us-east-1") := by
  rcases hd : dictGet REGION_NAMES loc with _ | code
  · refine ⟨"noregion", ?_, Or.inr ⟨rfl, fun c => dictGet_eq_none hd c⟩, ?_⟩
    · unfold Row.region; rw [h, okBind, hd]; rfl
    · intro hl; subst hl; exact absurd hd (by decide)
  · refine ⟨code, ?_, Or.inl (dictGet_mem hd), ?_⟩
    · unfold Row.region; rw [h, okBind, hd]; rfl
    · intro hl; subst hl
      have hconc : dictGet REGION_NAMES "US East (N. Virginia)" = some "us-east-1" := by decide
      injection hconc.symm.trans hd with h2
      exact h2.symm

/-- Witness for C8 at the row located in US East (N. Virginia). -/
theorem claimC8_region_graceful_witness :
    Row.getCol rowUSEast "product/location" = .ok "US East (N. Virginia)" ∧
    ∃ code, Row.region rowUSEast = .ok code ∧
      (("US East (N. Virginia)", code) ∈ REGION_NAMES ∨
        (code = "noregion" ∧ ∀ c, ("US East (N. Virginia)", c) ∉ REGION_NAMES)) ∧
      ("US East (N. Virginia)" = "US East (N. Virginia)" → code = "us-east-1") :=
  ⟨by decide, claimC8_region_graceful rowUSEast "US East (N. Virginia)" (by decide)⟩

/-- C9: the driver loop leaves the ledger untouched and raises nothing on a
row whose line-item type is present but not "Usage", and on a "Usage" row
whose interval parses to anything other than 3600 seconds. -/
theorem claimC9_driver_skips (tbl : Table) (r : Row)
    (h : (∃ s, r.getCol "lineItem/LineItemType" = .ok s ∧ s ≠ "Usage") ∨
      (r.getCol "lineItem/LineItemType" = .ok "Usage" ∧
        ∃ iv, r.interval = .ok iv ∧ iv ≠ 3600)) :
    driverStep tbl r = .ok tbl := by
  rcases h with ⟨s, hs, hne⟩ | ⟨hu, iv, hiv, hne⟩
  · simp [driverStep, hs, hne]
  · simp [driverStep, hu, hiv, hne]

/-- Witness for C9 at the non-"Usage" row. -/
theorem claimC9_driver_skips_witness : driverStep [] rowTax = .ok [] :=
  claimC9_driver_skips [] rowTax (Or.inl ⟨"Tax", by decide, by decide⟩)

/-! Helper lemmas about the string-splitting primitives. -/

theorem startsWithL_iff (p : List Char) : ∀ l, startsWithL p l = true ↔ ∃ t, l = p ++ t := by
  induction p with
  | nil => intro l; simp [startsWithL]
  | cons c ps ih =>
    intro l
    cases l with
    | nil => simp [startsWithL]
    | cons x xs =>
      simp only [startsWithL, Bool.and_eq_true, beq_iff_eq, ih xs]
      constructor
      · rintro ⟨rfl, t, rfl⟩
        exact ⟨t, rfl⟩
      · rintro ⟨t, ht⟩
        injection ht with h1 h2
        exact ⟨h1.symm, t, h2⟩

theorem containsL_iff (p : List Char) : ∀ l, containsL p l = true ↔ ∃ s t, l = s ++ p ++ t := by
  intro l
  induction l with
  | nil =>
    simp only [containsL, startsWithL_iff]
    constructor
    · rintro ⟨t, ht⟩
      exact ⟨[], t, by simpa using ht⟩
    · rintro ⟨s, t, ht⟩
      have h0 : s = [] ∧ p = [] ∧ t = [] := by simpa using ht.symm
      exact ⟨[], by simp [h0.2.1]⟩
  | cons x xs ih =>
    simp only [containsL, Bool.or_eq_true, startsWithL_iff, ih]
    constructor
    · rintro (⟨t, ht⟩ | ⟨s, t, ht⟩)
      · exact ⟨[], t, by simpa using ht⟩
      · exact ⟨x :: s, t, by simp [ht]⟩
    · rintro ⟨s, t, ht⟩
      cases s with
      | nil => exact Or.inl ⟨t, by simpa using ht⟩
      | cons y s2 =>
        injection ht with h1 h2
        exact Or.inr ⟨s2, t, h2⟩

theorem splitAll_spec (c : Char) : ∀ l, ∃ h t, splitAll c l = h :: t ∧
    (∃ r, l = h ++ r) ∧ (∀ p ∈ t, ∃ s r, l = s ++ p ++ r) := by
  intro l
  induction l with
  | nil => exact ⟨[], [], rfl, ⟨[], rfl⟩, by simp⟩
  | cons x xs ih =>
    obtain ⟨h, t, heq, ⟨r, hr⟩, ht⟩ := ih
    by_cases hx : x = c
    · refine ⟨[], h :: t, by simp [splitAll, hx, heq], ⟨x :: xs, rfl⟩, ?_⟩
      intro p hp
      rcases List.mem_cons.mp hp with rfl | hp2
      · exact ⟨[x], r, by simp [hr]⟩
      · obtain ⟨s, r2, hs⟩ := ht p hp2
        exact ⟨x :: s, r2, by simp [hs]⟩
    · refine ⟨x :: h, t, by simp [splitAll, hx, heq], ⟨r, by simp [hr]⟩, ?_⟩
      intro p hp
      obtain ⟨s, r2, hs⟩ := ht p hp
      exact ⟨x :: s, r2, by simp [hs]⟩

theorem splitFirst_two_of_mem {c : Char} : ∀ {l : List Char}, c ∈ l →
    ∃ a b, splitFirst c l = [a, b] := by
  intro l
  induction l with
  | nil => intro h; cases h
  | cons x xs ih =>
    intro h
    by_cases hx : x = c
    · exact ⟨[], xs, by simp [splitFirst, hx]⟩
    · have hm : c ∈ xs := by
        rcases List.mem_cons.mp h with rfl | hm
        · exact absurd rfl hx
        · exact hm
      obtain ⟨a, b, heq⟩ := ih hm
      exact ⟨x :: a, b, by simp [splitFirst, hx, heq]⟩

theorem classify_ec2_contains {raw : List Char}
    (h : classifyUsageType raw = .ok (some "ec2-instance")) :
    containsL "BoxUsage:".data raw = true := by
  obtain ⟨h0, t, heq, ⟨r, hr⟩, ht⟩ := splitAll_spec '-' raw
  rw [classifyUsageType.eq_def, heq] at h
  simp only [List.headD_cons] at h
  by_cases hreg : isRegionCodeSeg h0 = true
  · rw [if_pos hreg] at h
    cases t with
    | nil => cases h
    | cons h1 t1 =>
      have h2 : (if startsWithL "BoxUsage:".data h1 = true then
          (Except.ok (some "ec2-instance") : Except PyErr (Option String)) else .ok none) =
          Except.ok (some "ec2-instance") := h
      by_cases hsw : startsWithL "BoxUsage:".data h1 = true
      · obtain ⟨s, r2, hraw⟩ := ht h1 (List.mem_cons_self ..)
        obtain ⟨t3, rfl⟩ := (startsWithL_iff _ h1).mp hsw
        exact (containsL_iff _ raw).mpr ⟨s, t3 ++ r2, by simp [hraw]⟩
      · rw [if_neg hsw] at h2
        injection h2 with h3
        cases h3
  · rw [if_neg hreg] at h
    have h2 : (if startsWithL "BoxUsage:".data h0 = true then
        (Except.ok (some "ec2-instance") : Except PyErr (Option String)) else .ok none) =
        Except.ok (some "ec2-instance") := h
    by_cases hsw : startsWithL "BoxUsage:".data h0 = true
    · obtain ⟨t3, rfl⟩ := (startsWithL_iff _ h0).mp hsw
      exact (containsL_iff _ raw).mpr ⟨[], t3 ++ r, by simp [hr]⟩
    · rw [if_neg hsw] at h2
      injection h2 with h3
      cases h3

theorem colon_mem_of_contains {raw : List Char}
    (h : containsL "BoxUsage:".data raw = true) : ':' ∈ raw := by
  obtain ⟨s, t, rfl⟩ := (containsL_iff _ raw).mp h
  have : ':' ∈ "BoxUsage:".data := by decide
  simp [List.mem_append, this]

theorem instanceType_some_of_contains {raw : List Char}
    (h : containsL "BoxUsage:".data raw = true) :
    ∃ s, instanceTypeOfRaw raw = some s := by
  obtain ⟨a, b, heq⟩ := splitFirst_two_of_mem (colon_mem_of_contains h)
  refine ⟨String.mk (b.map (fun c => if c = '.' then '-' else c)), ?_⟩
  simp [instanceTypeOfRaw, h, heq]

/-- C10: whenever the `ByInstanceType` match check succeeds — it tests only
the classified category and the empty tag-set — the record classifies as
ec2-instance and its instance-type extraction returns SOME string (possibly
empty), never the absent value; so `metric_name` is never invoked on a
record with an absent instance type. -/
theorem claimC10_instance_type_present (r : Row)
    (h : TimeseriesPattern.matches .byInstanceType r = .ok true) :
    Row.usage_type r = .ok (some "ec2-instance") ∧
    ∃ s, Row.instance_type r = .ok (some s) := by
  unfold TimeseriesPattern.matches at h
  obtain ⟨ut, hut, hpure⟩ := bind_eq_ok h
  rw [pureOk] at hpure
  injection hpure with hb
  simp only [Bool.and_eq_true, beq_iff_eq] at hb
  obtain ⟨rfl, -⟩ := hb
  obtain ⟨rawS, hraw, hcls⟩ := bind_eq_ok hut
  have hcontains := classify_ec2_contains hcls
  obtain ⟨s, hs⟩ := instanceType_some_of_contains hcontains
  refine ⟨hut, ⟨s, ?_⟩⟩
  unfold Row.instance_type
  rw [hraw, okBind, pureOk, hs]

/-- Witness for C10 at the row whose usage type is exactly "BoxUsage:",
which also exhibits the empty-string instance type. -/
theorem claimC10_instance_type_present_witness :
    TimeseriesPattern.matches .byInstanceType rowBoxEmpty = .ok true ∧
    (Row.usage_type rowBoxEmpty = .ok (some "ec2-instance") ∧
      ∃ s, Row.instance_type rowBoxEmpty = .ok (some s)) ∧
    Row.instance_type rowBoxEmpty = .ok (some "") :=
  ⟨by decide, claimC10_instance_type_present rowBoxEmpty (by decide), by decide⟩

/-! Helper lemmas about metric names and the ledger. -/

theorem string_ne_of_take2 {s t : String} (h : s.data.take 2 ≠ t.data.take 2) : s ≠ t :=
  fun e => h (by rw [e])

theorem joinDot3_take2 (a b c : String) (ha : 2 ≤ a.data.length) :
    (joinDot [a, b, c]).data.take 2 = a.data.take 2 := by
  show (a ++ "." ++ (b ++ "." ++ c)).data.take 2 = a.data.take 2
  rw [String.data_append, String.data_append, List.append_assoc]
  exact List.take_append_of_le_length ha

theorem metricName_ne_total {reg : String} (it : String)
    (hreg : reg = "noregion" ∨ reg ∈ REGION_NAMES.map Prod.snd) :
    joinDot [reg, "ec2-instance", it] ≠ "all-regions.all-types.total-cost" := by
  apply string_ne_of_take2
  have h2 : 2 ≤ reg.data.length ∧
      reg.data.take 2 ≠ "all-regions.all-types.total-cost".data.take 2 := by
    rcases hreg with rfl | hm
    · exact ⟨by decide, by decide⟩
    · simp only [REGION_NAMES, List.map_cons, List.map_nil, List.mem_cons,
        List.not_mem_nil, or_false] at hm
      rcases hm with rfl | rfl | rfl | rfl | rfl | rfl | rfl | rfl | rfl | rfl <;>
        exact ⟨by decide, by decide⟩
  rw [joinDot3_take2 _ _ _ h2.1]
  exact h2.2

theorem matchesTrue_usage {r : Row}
    (h : TimeseriesPattern.matches .byInstanceType r = .ok true) :
    Row.usage_type r = .ok (some "ec2-instance") := by
  unfold TimeseriesPattern.matches at h
  obtain ⟨ut, hut, hpure⟩ := bind_eq_ok h
  rw [pureOk] at hpure
  injection hpure with hb
  simp only [Bool.and_eq_true, beq_iff_eq] at hb
  obtain ⟨rfl, -⟩ := hb
  exact hut

/-- C5 counterexample: `rowAwsBox` is an hourly "Usage" row with empty
tag-set whose usage-type CONTAINS "BoxUsage:m1.small", yet the pipeline
produces only the AllCostsTotal point — no PerInstanceType point — because
the `BoxUsage:` marker is not the first dash-segment, so the row classifies
as unknown. -/
theorem claimC5_counterexample :
    containsL "BoxUsage:m1.small".data "AWS-BoxUsage:m1.small".data = true ∧
    Row.getCol rowAwsBox "lineItem/LineItemType" = .ok "Usage" ∧
    Row.interval rowAwsBox = .ok 3600 ∧
    Row.tags rowAwsBox = [] ∧
    Row.usage_type rowAwsBox = .ok none ∧
    driverStep [] rowAwsBox =
      .ok [("all-regions.all-types.total-cost", [(1485910800, mkRat 85 100)])] := by
  decide

/-- C5 (amended): for every hourly "Usage" row that CLASSIFIES as
ec2-instance (its `BoxUsage:<type>` marker is the first dash-segment after
an optional region-code prefix) with its tag-set (always) empty, the
pipeline produces exactly one PerInstanceType point named
`<region>.ec2-instance.<instance-type>` and exactly one AllCostsTotal point
named `all-regions.all-types.total-cost`, both carrying the row's amount at
the row's end timestamp. -/
theorem claimC5_single_row_points (r : Row) (reg it : String) (t : Int) (a : ℚ)
    (hlit : r.getCol "lineItem/LineItemType" = .ok "Usage")
    (hiv : r.interval = .ok 3600)
    (hut : Row.usage_type r = .ok (some "ec2-instance"))
    (hreg : Row.region r = .ok reg)
    (hit : Row.instance_type r = .ok (some it))
    (hend : Row.end_time r = .ok t)
    (hamt : Row.amount r = .ok a) :
    driverStep [] r =
      .ok [(joinDot [reg, "ec2-instance", it], [(t, a)]),
        ("all-regions.all-types.total-cost", [(t, a)])] := by
  have hmatches : TimeseriesPattern.matches .byInstanceType r = .ok true := by
    show (r.usage_type >>= fun ut =>
      pure (ut == some "ec2-instance" && r.tags.length == 0)) = Except.ok true
    rw [hut, okBind]
    rfl
  have hname : TimeseriesPattern.metric_name .byInstanceType r =
      .ok (joinDot [reg, "ec2-instance", it]) := by
    show (r.region >>= fun rg => r.usage_type >>= fun ut => r.instance_type >>= fun ist =>
      match seqOpt [some rg, ut, ist] with
      | some pieces => pure (joinDot pieces)
      | none => Except.error PyErr.typeError) = Except.ok (joinDot [reg, "ec2-instance", it])
    rw [hreg, okBind, hut, okBind, hit, okBind]
    rfl
  have hne : joinDot [reg, "ec2-instance", it] ≠ "all-regions.all-types.total-cost" :=
    metricName_ne_total it (region_ok_cases hreg)
  have h1 : MetricLedger.processOne r [] .byInstanceType =
      .ok [(joinDot [reg, "ec2-instance", it], [(t, a)])] := by
    unfold MetricLedger.processOne
    rw [hmatches, okBind, if_pos rfl, hname, okBind, hend, okBind, hamt, okBind]
    rfl
  have h2 : MetricLedger.processOne r [(joinDot [reg, "ec2-instance", it], [(t, a)])]
      .allCosts =
      .ok [(joinDot [reg, "ec2-instance", it], [(t, a)]),
        ("all-regions.all-types.total-cost", [(t, a)])] := by
    unfold MetricLedger.processOne
    show (pure true >>= fun b => _) = _
    rw [pureOk, okBind, if_pos rfl]
    show (pure "all-regions.all-types.total-cost" >>= fun n => _) = _
    rw [pureOk, okBind, hend, okBind, hamt, okBind, pureOk]
    simp [addSeries, hne, addPoint]
  unfold driverStep
  rw [hlit, okBind, if_neg (by simp), hiv, okBind, if_neg (by simp)]
  unfold MetricLedger.process defaultPatterns
  simp only [List.foldlM]
  rw [h1, okBind, h2, okBind]
  rfl

/-- Witness for C5 (amended) at the hourly `BoxUsage:c3.2xlarge` row in US
West (Oregon) costing 1.25. -/
theorem claimC5_single_row_points_witness :
    driverStep [] rowSum1 =
      .ok [(joinDot ["us-west-2", "ec2-instance", "c3-2xlarge"], [(1485910800, mkRat 125 100)]),
        ("all-regions.all-types.total-cost", [(1485910800, mkRat 125 100)])] :=
  claimC5_single_row_points rowSum1 "us-west-2" "c3-2xlarge" 1485910800 (mkRat 125 100)
    (by decide) (by decide) (by decide) (by decide) (by decide) (by decide) (by decide)

/-! Helper lemmas for the aggregation table. -/

theorem addPoint_lookup (s : Series) (t : Int) (a : ℚ) (t0 : Int) :
    lookupPoint (addPoint s t a) t0 = lookupPoint s t0 + if t = t0 then a else 0 := by
  induction s with
  | nil =>
    simp only [addPoint, lookupPoint]
    by_cases h : t = t0 <;> simp [h, lookupPoint]
  | cons p rest ih =>
    obtain ⟨t2, v⟩ := p
    by_cases h2 : t2 = t
    · subst h2
      simp only [addPoint, if_pos rfl, lookupPoint]
      by_cases h0 : t2 = t0 <;> simp [h0]
    · simp only [addPoint, if_neg h2, lookupPoint]
      by_cases h0 : t2 = t0
      · subst h0
        rw [if_pos rfl, if_pos rfl, if_neg (fun e => h2 e.symm), add_zero]
      · rw [if_neg h0, if_neg h0]
        exact ih

theorem addSeries_lookup (tbl : Table) (n : String) (t : Int) (a : ℚ) (n0 : String) (t0 : Int) :
    lookupVal (addSeries tbl n t a) n0 t0 =
      lookupVal tbl n0 t0 + if n = n0 ∧ t = t0 then a else 0 := by
  induction tbl with
  | nil =>
    simp only [addSeries, addPoint, lookupVal]
    by_cases hn : n = n0
    · subst hn
      rw [if_pos rfl]
      by_cases ht2 : t = t0 <;> simp [lookupPoint, ht2]
    · rw [if_neg hn]
      simp [lookupVal, hn]
  | cons p rest ih =>
    obtain ⟨n2, s⟩ := p
    by_cases h2 : n2 = n
    · subst h2
      simp only [addSeries, if_pos rfl, lookupVal]
      by_cases h0 : n2 = n0
      · subst h0
        rw [if_pos rfl, if_pos rfl, addPoint_lookup]
        simp
      · rw [if_neg h0, if_neg h0]
        simp [h0]
    · simp only [addSeries, if_neg h2, lookupVal]
      by_cases h0 : n2 = n0
      · subst h0
        rw [if_pos rfl, if_pos rfl, if_neg (fun e : n = n2 ∧ t = t0 => h2 e.1.symm), add_zero]
      · rw [if_neg h0, if_neg h0]
        exact ih

theorem addPoint_keys (s : Series) (t : Int) (a : ℚ) (t0 : Int) :
    t0 ∈ (addPoint s t a).map Prod.fst ↔ t0 ∈ s.map Prod.fst ∨ t0 = t := by
  induction s with
  | nil => simp [addPoint]
  | cons p rest ih =>
    obtain ⟨t2, v⟩ := p
    by_cases h2 : t2 = t
    · subst h2
      simp [addPoint]
      tauto
    · simp [addPoint, h2, ih]
      tauto

theorem addPoint_keys_nodup {s : Series} (h : (s.map Prod.fst).Nodup) (t : Int) (a : ℚ) :
    ((addPoint s t a).map Prod.fst).Nodup := by
  induction s with
  | nil => simp [addPoint]
  | cons p rest ih =>
    obtain ⟨t2, v⟩ := p
    simp only [List.map_cons, List.nodup_cons] at h
    by_cases h2 : t2 = t
    · subst h2
      simpa [addPoint] using h
    · simp only [addPoint, if_neg h2, List.map_cons, List.nodup_cons]
      refine ⟨?_, ih h.2⟩
      rw [addPoint_keys]
      rintro (hm | rfl)
      · exact h.1 hm
      · exact h2 rfl

theorem addSeries_keys (tbl : Table) (n : String) (t : Int) (a : ℚ) (n0 : String) :
    n0 ∈ (addSeries tbl n t a).map Prod.fst ↔ n0 ∈ tbl.map Prod.fst ∨ n0 = n := by
  induction tbl with
  | nil => simp [addSeries]
  | cons p rest ih =>
    obtain ⟨n2, s⟩ := p
    by_cases h2 : n2 = n
    · subst h2
      simp [addSeries]
      tauto
    · simp [addSeries, h2, ih]
      tauto

theorem addSeries_WF (n : String) (t : Int) (a : ℚ) :
    ∀ tbl : Table, TableWF tbl → TableWF (addSeries tbl n t a) := by
  intro tbl
  induction tbl with
  | nil =>
    intro _
    refine ⟨by simp [addSeries, addPoint], ?_⟩
    intro x hx
    simp only [addSeries, addPoint, List.mem_singleton] at hx
    subst hx
    simp
  | cons p rest ih =>
    intro h
    obtain ⟨n2, s⟩ := p
    simp only [TableWF, List.map_cons, List.nodup_cons] at h
    obtain ⟨⟨hn2, hrest⟩, hinner⟩ := h
    by_cases h2 : n2 = n
    · subst h2
      have haddeq : addSeries ((n2, s) :: rest) n2 t a = (n2, addPoint s t a) :: rest := by
        simp [addSeries]
      refine ⟨?_, ?_⟩
      · rw [haddeq, List.map_cons, List.nodup_cons]
        exact ⟨hn2, hrest⟩
      · intro x hx
        rw [haddeq] at hx
        rcases List.mem_cons.mp hx with rfl | hm
        · exact addPoint_keys_nodup (hinner (n2, s) (List.mem_cons_self ..)) t a
        · exact hinner x (List.mem_cons_of_mem _ hm)
    · have ihr := ih ⟨hrest, fun x hx => hinner x (List.mem_cons_of_mem _ hx)⟩
      refine ⟨?_, ?_⟩
      · simp only [addSeries, if_neg h2, List.map_cons, List.nodup_cons]
        refine ⟨?_, ihr.1⟩
        rw [addSeries_keys]
        rintro (hm | rfl)
        · exact hn2 hm
        · exact h2 rfl
      · intro x hx
        simp only [addSeries, if_neg h2] at hx
        rcases List.mem_cons.mp hx with rfl | hm
        · exact hinner (n2, s) (List.mem_cons_self ..)
        · exact ihr.2 x hm

theorem processOne_cases {r : Row} {tbl : Table} {p : TimeseriesPattern} {tbl2 : Table}
    (h : MetricLedger.processOne r tbl p = .ok tbl2) :
    tbl2 = tbl ∨ ∃ n t a, tbl2 = addSeries tbl n t a := by
  unfold MetricLedger.processOne at h
  obtain ⟨b, hm, h2⟩ := bind_eq_ok h
  cases b with
  | false =>
    rw [if_neg (by simp), pureOk] at h2
    injection h2 with h3
    exact Or.inl h3.symm
  | true =>
    rw [if_pos rfl] at h2
    obtain ⟨n, hn, h3⟩ := bind_eq_ok h2
    obtain ⟨t, ht2, h4⟩ := bind_eq_ok h3
    obtain ⟨a, ha, h5⟩ := bind_eq_ok h4
    rw [pureOk] at h5
    injection h5 with h6
    exact Or.inr ⟨n, t, a, h6.symm⟩

theorem processPatterns_WF (r : Row) : ∀ (ps : List TimeseriesPattern) (tbl tbl2 : Table),
    List.foldlM (MetricLedger.processOne r) tbl ps = .ok tbl2 → TableWF tbl → TableWF tbl2 := by
  intro ps
  induction ps with
  | nil =>
    intro tbl tbl2 h hwf
    simp only [List.foldlM] at h
    rw [pureOk] at h
    injection h with h2
    rwa [← h2]
  | cons p ps ih =>
    intro tbl tbl2 h hwf
    simp only [List.foldlM] at h
    obtain ⟨tbl1, h1, h2⟩ := bind_eq_ok h
    rcases processOne_cases h1 with rfl | ⟨n, t, a, rfl⟩
    · exact ih _ _ h2 hwf
    · exact ih _ _ h2 (addSeries_WF n t a _ hwf)

theorem processRows_WF : ∀ (rows : List Row) (tbl tbl2 : Table),
    List.foldlM (MetricLedger.process defaultPatterns) tbl rows = .ok tbl2 →
    TableWF tbl → TableWF tbl2 := by
  intro rows
  induction rows with
  | nil =>
    intro tbl tbl2 h hwf
    simp only [List.foldlM] at h
    rw [pureOk] at h
    injection h with h2
    rwa [← h2]
  | cons r rest ih =>
    intro tbl tbl2 h hwf
    simp only [List.foldlM] at h
    obtain ⟨tbl1, h1, h2⟩ := bind_eq_ok h
    exact ih _ _ h2 (processPatterns_WF r defaultPatterns tbl tbl1 h1 hwf)

theorem contributesB_iff (r : Row) (n : String) (t : Int) :
    contributesB r n t = true ↔
      ((TimeseriesPattern.matches .byInstanceType r = .ok true ∧
        TimeseriesPattern.metric_name .byInstanceType r = .ok n ∧ r.end_time = .ok t) ∨
       (TimeseriesPattern.matches .allCosts r = .ok true ∧
        TimeseriesPattern.metric_name .allCosts r = .ok n ∧ r.end_time = .ok t)) := by
  simp [contributesB, defaultPatterns, List.any_cons, List.any_nil, Bool.and_eq_true,
    decide_eq_true_eq, and_assoc]

theorem byName_ne_total {r : Row} {n1 : String}
    (hb : TimeseriesPattern.matches .byInstanceType r = .ok true)
    (hn : TimeseriesPattern.metric_name .byInstanceType r = .ok n1) :
    n1 ≠ "all-regions.all-types.total-cost" := by
  have husage := matchesTrue_usage hb
  have hn2 : (r.region >>= fun rg => r.usage_type >>= fun ut => r.instance_type >>= fun ist =>
      match seqOpt [some rg, ut, ist] with
      | some pieces => pure (joinDot pieces)
      | none => Except.error PyErr.typeError) = Except.ok n1 := hn
  obtain ⟨reg, hregok, hx⟩ := bind_eq_ok hn2
  obtain ⟨ut, hutx, hy⟩ := bind_eq_ok hx
  have hutv : ut = some "ec2-instance" := by
    injection husage.symm.trans hutx with h3
    exact h3.symm
  subst hutv
  obtain ⟨it0, hit0, hz⟩ := bind_eq_ok hy
  cases it0 with
  | none =>
    have hz2 : (Except.error PyErr.typeError : Except PyErr String) = Except.ok n1 := hz
    cases hz2
  | some i =>
    have hz2 : (pure (joinDot [reg, "ec2-instance", i]) : Except PyErr String) =
      Except.ok n1 := hz
    rw [pureOk] at hz2
    injection hz2 with h4
    rw [← h4]
    exact metricName_ne_total i (region_ok_cases hregok)

theorem process_lookup {r : Row} {tbl tbl2 : Table}
    (h : MetricLedger.process defaultPatterns tbl r = .ok tbl2) (n : String) (t : Int) :
    lookupVal tbl2 n t = lookupVal tbl n t +
      (if contributesB r n t then amountD r else 0) := by
  unfold MetricLedger.process defaultPatterns at h
  simp only [List.foldlM] at h
  obtain ⟨tbl1, h1, hrest⟩ := bind_eq_ok h
  obtain ⟨tblB, h2, hp⟩ := bind_eq_ok hrest
  rw [pureOk] at hp
  injection hp with hp2
  subst hp2
  -- invert the AllCosts step
  unfold MetricLedger.processOne at h2
  obtain ⟨b0, hb0, h3⟩ := bind_eq_ok h2
  have hb0b : (Except.ok true : Except PyErr Bool) = .ok b0 := hb0
  injection hb0b with hb0c
  subst hb0c
  rw [if_pos rfl] at h3
  obtain ⟨n2, hn2v, h4⟩ := bind_eq_ok h3
  have hn2b : (Except.ok "all-regions.all-types.total-cost" : Except PyErr String) =
    .ok n2 := hn2v
  injection hn2b with hn2c
  subst hn2c
  obtain ⟨t2, ht2, h5⟩ := bind_eq_ok h4
  obtain ⟨a2, ha2, h6⟩ := bind_eq_ok h5
  rw [pureOk] at h6
  injection h6 with h7
  subst h7
  -- invert the ByInstanceType step
  unfold MetricLedger.processOne at h1
  obtain ⟨b1, hb1, h8⟩ := bind_eq_ok h1
  cases b1 with
  | false =>
    rw [if_neg (by simp), pureOk] at h8
    injection h8 with h9
    subst h9
    rw [addSeries_lookup]
    by_cases hc : contributesB r n t
    · rcases (contributesB_iff r n t).mp hc with ⟨hm1, -, -⟩ | ⟨-, hm2, hm3⟩
      · injection hb1.symm.trans hm1 with hcontra
        cases hcontra
      · have hn : "all-regions.all-types.total-cost" = n :=
          Except.ok.inj (hm2 : (Except.ok "all-regions.all-types.total-cost" :
            Except PyErr String) = .ok n)
        have ht : t2 = t := Except.ok.inj (ht2.symm.trans hm3)
        rw [if_pos ⟨hn, ht⟩, if_pos hc]
        have had : amountD r = a2 := by simp [amountD, ha2]
        rw [had]
    · have hnc : ¬("all-regions.all-types.total-cost" = n ∧ t2 = t) := by
        rintro ⟨h13, h14⟩
        exact hc ((contributesB_iff r n t).mpr (Or.inr ⟨rfl, h13 ▸ rfl, h14 ▸ ht2⟩))
      rw [if_neg hnc, if_neg hc]
  | true =>
    rw [if_pos rfl] at h8
    obtain ⟨n1, hn1, h9⟩ := bind_eq_ok h8
    obtain ⟨t1, ht1, h10⟩ := bind_eq_ok h9
    obtain ⟨a1, ha1, h11⟩ := bind_eq_ok h10
    rw [pureOk] at h11
    injection h11 with h12
    subst h12
    have htt : t1 = t2 := Except.ok.inj (ht1.symm.trans ht2)
    subst htt
    have haa : a1 = a2 := Except.ok.inj (ha1.symm.trans ha2)
    subst haa
    have hne := byName_ne_total hb1 hn1
    have had : amountD r = a1 := by simp [amountD, ha1]
    rw [addSeries_lookup, addSeries_lookup]
    by_cases hc : contributesB r n t
    · rcases (contributesB_iff r n t).mp hc with ⟨-, hm2, hm3⟩ | ⟨-, hm2, hm3⟩
      · have hn : n1 = n := Except.ok.inj (hn1.symm.trans hm2)
        have ht : t1 = t := Except.ok.inj (ht1.symm.trans hm3)
        have hnc : ¬("all-regions.all-types.total-cost" = n ∧ t1 = t) := by
          rintro ⟨h13, -⟩
          exact hne (by rw [hn, ← h13])
        rw [if_pos ⟨hn, ht⟩, if_neg hnc, if_pos hc, had]
        ring
      · have hn : "all-regions.all-types.total-cost" = n :=
          Except.ok.inj (hm2 : (Except.ok "all-regions.all-types.total-cost" :
            Except PyErr String) = .ok n)
        have ht : t1 = t := Except.ok.inj (ht1.symm.trans hm3)
        have hnc : ¬(n1 = n ∧ t1 = t) := by
          rintro ⟨h13, -⟩
          exact hne (by rw [h13, ← hn])
        rw [if_neg hnc, if_pos ⟨hn, ht⟩, if_pos hc, had]
        ring
    · have hnc1 : ¬(n1 = n ∧ t1 = t) := by
        rintro ⟨h13, h14⟩
        exact hc ((contributesB_iff r n t).mpr (Or.inl ⟨hb1, h13 ▸ hn1, h14 ▸ ht1⟩))
      have hnc2 : ¬("all-regions.all-types.total-cost" = n ∧ t1 = t) := by
        rintro ⟨h13, h14⟩
        exact hc ((contributesB_iff r n t).mpr (Or.inr ⟨rfl, h13 ▸ rfl, h14 ▸ ht1⟩))
      rw [if_neg hnc1, if_neg hnc2, if_neg hc]
      ring

theorem foldProcess : ∀ (rows : List Row) (tbl0 tbl : Table),
    List.foldlM (MetricLedger.process defaultPatterns) tbl0 rows = .ok tbl → ∀ n t,
    lookupVal tbl n t = lookupVal tbl0 n t +
      ((rows.filter (fun r => contributesB r n t)).map amountD).sum := by
  intro rows
  induction rows with
  | nil =>
    intro tbl0 tbl h n t
    simp only [List.foldlM] at h
    rw [pureOk] at h
    injection h with h2
    subst h2
    simp
  | cons r rest ih =>
    intro tbl0 tbl h n t
    simp only [List.foldlM] at h
    obtain ⟨tbl1, h1, h2⟩ := bind_eq_ok h
    rw [ih _ _ h2 n t, process_lookup h1 n t]
    by_cases hc : contributesB r n t
    · simp only [List.filter_cons, hc, if_true, List.map_cons, List.sum_cons]
      ring
    · simp only [List.filter_cons, hc, Bool.false_eq_true, if_false]
      ring

/-- C6: after any successfully processed record sequence, the ledger's
table is well-formed — at most one accumulator per (metric-name, timestamp)
pair — and the value at each pair is the sum of the amounts of exactly those
processed records that some rule maps to that metric name and end
timestamp. -/
theorem claimC6_ledger_sums (rows : List Row) (tbl : Table)
    (h : processAll rows = .ok tbl) :
    TableWF tbl ∧ ∀ n t, lookupVal tbl n t =
      ((rows.filter (fun r => contributesB r n t)).map amountD).sum := by
  refine ⟨processRows_WF rows [] tbl h ⟨List.nodup_nil, by simp⟩, ?_⟩
  intro n t
  have h2 := foldProcess rows [] tbl h n t
  simpa [lookupVal] using h2

/-- Witness for C6: two rows with the same metric name and end timestamp
(amounts 1.25 and 0.75) yield a single accumulator holding their sum, 2. -/
theorem claimC6_ledger_sums_witness :
    processAll [rowSum1, rowSum2] = .ok tblSum ∧
    lookupVal tblSum "us-west-2.ec2-instance.c3-2xlarge" 1485910800 =
      (([rowSum1, rowSum2].filter
        (fun r => contributesB r "us-west-2.ec2-instance.c3-2xlarge" 1485910800)).map
          amountD).sum ∧
    TableWF tblSum ∧
    lookupVal tblSum "us-west-2.ec2-instance.c3-2xlarge" 1485910800 = 2 := by
  have hW : processAll [rowSum1, rowSum2] = .ok tblSum := by rfl
  have hmain := claimC6_ledger_sums [rowSum1, rowSum2] tblSum hW
  refine ⟨hW, hmain.2 _ _, hmain.1, ?_⟩
  show lookupVal tblSum _ _ = 2
  simp only [tblSum, lookupVal, lookupPoint, if_pos rfl]
  norm_num [Rat.mkRat_eq_div]
